import Mathlib

/-!
Verification development for the customer-segmentation dashboard
(`app.py`).  The pipeline under study: upload a CSV, select two numeric
columns, standardize them, run K-Means, and render a per-cluster summary
table with a canned interpretation line per cluster.

The summary / interpretation logic (app.py lines 219-252) is embedded
over exact rationals.  The library calls (`StandardScaler`,
`KMeans.fit_predict`) are not part of the repository's own sources, so
they are modelled from the specification's contract for the clustering
engine (spec sections 4.3 and 4.1); those models are marked in their doc
comments.
-/

namespace KMeansApp

/-- A dataset row restricted to the two selected features, together with
the cluster id assigned to it by `fit_predict` (the `df` after line 181
of app.py, projected to the columns the summary uses). -/
structure Row where
  f1 : ℚ
  f2 : ℚ
  cluster : ℕ
deriving DecidableEq, Repr

/-- The arithmetic mean of a list, as pandas `.mean()` computes it
(sum divided by length; `0 / 0 = 0` for the empty list). -/
def mean (xs : List ℚ) : ℚ := xs.sum / (xs.length : ℚ)

/-- The largest cluster id occurring in the data (0 when empty). -/
def maxCluster (data : List Row) : ℕ := (data.map Row.cluster).foldr max 0

/-- The distinct cluster ids occurring in the data, in ascending order:
pandas `df.groupby("Cluster")` enumerates exactly the observed group
keys, sorted ascending. -/
def clusterIds (data : List Row) : List ℕ :=
  (List.range (maxCluster data + 1)).filter (fun c => data.any (fun r => r.cluster == c))

/-- The rows belonging to cluster `c` (one pandas group). -/
def groupRows (data : List Row) (c : ℕ) : List Row :=
  data.filter (fun r => r.cluster == c)

/-- One row of the summary dataframe built at app.py lines 219-227:
`df.groupby("Cluster").agg(Count=..., Avg_Feature_1=..., Avg_Feature_2=...)`. -/
structure SummaryRow where
  Cluster : ℕ
  Count : ℕ
  Avg_Feature_1 : ℚ
  Avg_Feature_2 : ℚ
deriving DecidableEq, Repr

/-- The summary dataframe (app.py lines 219-227): one row per observed
cluster id, ascending, with the group size and the per-feature means in
original units. -/
def summary (data : List Row) : List SummaryRow :=
  (clusterIds data).map (fun c =>
    { Cluster := c
      Count := (groupRows data c).length
      Avg_Feature_1 := mean ((groupRows data c).map Row.f1)
      Avg_Feature_2 := mean ((groupRows data c).map Row.f2) })

/-- `summary["Avg_Feature_1"].mean()` (app.py line 240): the unweighted
mean of the summary column. -/
def grand_mean_1 (s : List SummaryRow) : ℚ := mean (s.map SummaryRow.Avg_Feature_1)

/-- `summary["Avg_Feature_2"].mean()` (app.py line 241): the unweighted
mean of the summary column. -/
def grand_mean_2 (s : List SummaryRow) : ℚ := mean (s.map SummaryRow.Avg_Feature_2)

/-- Fixed label string of the first branch (app.py line 243). -/
def highMsg : String := "High-spending customers across multiple categories"

/-- Fixed label string of the second branch (app.py line 248). -/
def budgetMsg : String := "Budget-conscious customers with low annual spend"

/-- Fixed label string of the else branch (app.py line 250). -/
def moderateMsg : String := "Moderate spenders with selective purchasing behavior"

/-- The if/elif/else classification of one summary row against the
grand means (app.py lines 239-250). -/
def interpret (s : List SummaryRow) (r : SummaryRow) : String :=
  if r.Avg_Feature_1 > grand_mean_1 s ∧ r.Avg_Feature_2 > grand_mean_2 s then
    highMsg
  else if r.Avg_Feature_1 < grand_mean_1 s ∧ r.Avg_Feature_2 < grand_mean_2 s then
    budgetMsg
  else
    moderateMsg

/-- The business-interpretation loop (app.py lines 236-252): one
`(cluster id, label)` line per summary row, in summary order. -/
def interpretationLines (data : List Row) : List (ℕ × String) :=
  (summary data).map (fun r => (r.Cluster, interpret (summary data) r))

/-- Modelled from the spec (section 4.4): the grand mean as the
mean-of-cluster-means across all clusters, for feature 1.  Stated from
the spec's words so it can be compared with the code's
`grand_mean_1 (summary data)`. -/
def spec_grand_mean_1 (data : List Row) : ℚ :=
  mean ((clusterIds data).map (fun c => mean ((groupRows data c).map Row.f1)))

/-- Modelled from the spec (section 4.4): the grand mean as the
mean-of-cluster-means across all clusters, for feature 2. -/
def spec_grand_mean_2 (data : List Row) : ℚ :=
  mean ((clusterIds data).map (fun c => mean ((groupRows data c).map Row.f2)))

/-- The row-weighted global mean of feature 1 over all rows: the
alternative reading that the spec explicitly rules out. -/
def row_weighted_mean_1 (data : List Row) : ℚ := mean (data.map Row.f1)

/-- Dataset with unequal cluster sizes separating mean-of-cluster-means
from the row-weighted global mean: cluster 0 holds one row with
feature 1 value 0, cluster 1 holds two rows with feature 1 value 6. -/
def unequalData : List Row :=
  [⟨0, 0, 0⟩, ⟨6, 0, 1⟩, ⟨6, 0, 1⟩]

/-- Squared Euclidean distance between two points of the 2-D feature
space.  Nearest-centroid comparisons under squared distance agree with
comparisons under Euclidean distance. -/
def dist2 (p q : ℚ × ℚ) : ℚ := (p.1 - q.1) ^ 2 + (p.2 - q.2) ^ 2

/-- Index of the centroid nearest to `p` in the list `cs` (first one on
ties).  Part of the clustering-engine model. -/
def nearestIdx (p : ℚ × ℚ) : List (ℚ × ℚ) → ℕ
  | [] => 0
  | [_] => 0
  | c :: c' :: cs =>
    let r := nearestIdx p (c' :: cs)
    if dist2 p c ≤ dist2 p ((c' :: cs).getD r c) then 0 else r + 1

/-- Assignment step of Lloyd's algorithm: each point gets the index of
its nearest centroid. -/
def assignLabels (X : List (ℚ × ℚ)) (cs : List (ℚ × ℚ)) : List ℕ :=
  X.map (fun p => nearestIdx p cs)

/-- Mean of a list of points, coordinatewise. -/
def meanPoint (ps : List (ℚ × ℚ)) : ℚ × ℚ :=
  (mean (ps.map Prod.fst), mean (ps.map Prod.snd))

/-- Update step of Lloyd's algorithm: centroid `j` becomes the mean of
the points currently assigned to `j`; a centroid whose cluster is empty
is kept unchanged. -/
def stepCentroids (X : List (ℚ × ℚ)) (cs : List (ℚ × ℚ)) : List (ℚ × ℚ) :=
  (List.range cs.length).map (fun j =>
    let pts := ((X.zip (assignLabels X cs)).filter (fun pl => pl.2 == j)).map Prod.fst
    if pts.isEmpty then cs.getD j (0, 0) else meanPoint pts)

/-- Lloyd iteration with a fuel bound: stop when the centroids are
stable or the iteration cap is reached. -/
def lloyd (X : List (ℚ × ℚ)) : ℕ → List (ℚ × ℚ) → List (ℚ × ℚ)
  | 0, cs => cs
  | n + 1, cs =>
    let cs' := stepCentroids X cs
    if cs' = cs then cs else lloyd X n cs'

/-- Modelled from the spec (section 4.3, step 2): the initial centroids
are an internal deterministic policy of the seed; here, `k` points of
`X` picked at seed-determined positions.  The library's exact
initialization (seeded k-means++) is not part of the repository's
sources. -/
def initCentroids (X : List (ℚ × ℚ)) (k seed : ℕ) : List (ℚ × ℚ) :=
  (List.range k).map (fun i => X.getD ((seed + i) % X.length) (0, 0))

/-- Iteration cap of the clustering engine (the library default). -/
def maxIter : ℕ := 300

/-- The clustering engine's error message when K exceeds the row
count. -/
def nSamplesErr : String := "n_samples should be >= n_clusters"

/-- Modelled from the spec (section 4.3): `KMeans(n_clusters=k,
random_state=seed).fit_predict(X)` (app.py lines 177-181).  The
library's code is not in the repository; per the spec it standardizes
nothing itself, iteratively assigns points to the nearest of `k`
centroids and recomputes centroids until stable or the cap, returns one
cluster id per row, and fails when `k` exceeds the number of rows
instead of truncating `k`. -/
def fit_predict (X : List (ℚ × ℚ)) (k : ℕ) (seed : ℕ) : Except String (List ℕ) :=
  if X.length < k then
    Except.error nSamplesErr
  else
    Except.ok (assignLabels X (lloyd X maxIter (initCentroids X k seed)))

/-- Column mean over the reals, for the scaler model. -/
noncomputable def colMean (v : List ℝ) : ℝ := v.sum / (v.length : ℝ)

/-- Population variance of a column: mean squared deviation, divided by
`N` (not `N - 1`). -/
noncomputable def popVar (v : List ℝ) : ℝ := ((v.map (fun x => (x - colMean v) ^ 2)).sum) / (v.length : ℝ)

/-- Population standard deviation: the square root of `popVar`. -/
noncomputable def popStd (v : List ℝ) : ℝ := Real.sqrt (popVar v)

/-- One standardized column: subtract the column mean, divide by the
column's population standard deviation. -/
noncomputable def stdCol (v : List ℝ) : List ℝ :=
  v.map (fun x => (x - colMean v) / popStd v)

/-- Modelled from the spec (section 4.3, step 1):
`StandardScaler().fit_transform(X)` (app.py lines 174-175).  The
library's code is not in the repository; per the spec each of the two
columns is standardized independently into z-scores. -/
noncomputable def fit_transform (X : List (ℝ × ℝ)) : List (ℝ × ℝ) :=
  (stdCol (X.map Prod.fst)).zip (stdCol (X.map Prod.snd))

/-- Modelled from the spec (section 4.3, step 4):
`scaler.inverse_transform(kmeans.cluster_centers_)` (app.py lines
195-197).  The library's code is not in the repository; per the spec
the standardization is reversed coordinatewise: multiply by the
column's standard deviation, add back the column's mean. -/
noncomputable def inverse_transform (X : List (ℝ × ℝ)) (cs : List (ℝ × ℝ)) : List (ℝ × ℝ) :=
  cs.map (fun c =>
    (c.1 * popStd (X.map Prod.fst) + colMean (X.map Prod.fst),
     c.2 * popStd (X.map Prod.snd) + colMean (X.map Prod.snd)))

/-- Modelled from the spec (sections 4.1-4.2, 7): the widget layer is
not in scope of the sources; feature 1 defaults to the first numeric
column, feature 2 to the first numeric column different from feature 1
(the second selector's candidate set excludes the first choice, app.py
lines 148-155); no pair is selectable when fewer than two numeric
columns exist. -/
def selectFeaturePair (numeric_features : List String) : Option (String × String) :=
  match numeric_features with
  | [] => none
  | f1 :: _ =>
    match numeric_features.filter (fun f => f != f1) with
    | [] => none
    | f2 :: _ => some (f1, f2)

/-- The run-clustering gate: the clustering computation happens only
when a feature pair was selectable; otherwise the run is blocked
(app.py lines 148-181 under the upload guard). -/
def gatedRun (numeric_features : List String) (X : List (ℚ × ℚ)) (k seed : ℕ) :
    Option (Except String (List ℕ)) :=
  (selectFeaturePair numeric_features).map (fun _ => fit_predict X k seed)

attribute [local semireducible] Rat.add Rat.mul Rat.inv Rat.sub Rat.ofScientific

theorem le_foldr_max (l : List ℕ) (x : ℕ) (hx : x ∈ l) : x ≤ l.foldr max 0 := by
  induction l with
  | nil => cases hx
  | cons a t ih =>
    rcases List.mem_cons.mp hx with h | h
    · subst h; exact le_max_left _ _
    · exact le_trans (ih h) (le_max_right _ _)

theorem mem_clusterIds (data : List Row) (c : ℕ) :
    c ∈ clusterIds data ↔ ∃ r ∈ data, r.cluster = c := by
  unfold clusterIds
  rw [List.mem_filter]
  constructor
  · rintro ⟨-, h⟩
    rcases List.any_eq_true.mp h with ⟨r, hr, hc⟩
    exact ⟨r, hr, by simpa using hc⟩
  · rintro ⟨r, hr, rfl⟩
    refine ⟨?_, ?_⟩
    · have hle : r.cluster ≤ maxCluster data :=
        le_foldr_max _ _ (List.mem_map_of_mem _ hr)
      exact List.mem_range.mpr (Nat.lt_succ_of_le hle)
    · exact List.any_eq_true.mpr ⟨r, hr, by simp⟩

theorem clusterIds_nodup (data : List Row) : (clusterIds data).Nodup :=
  List.Nodup.filter _ (List.nodup_range _)

theorem clusterIds_sorted (data : List Row) :
    List.Pairwise (· < ·) (clusterIds data) :=
  List.Pairwise.filter _ (List.pairwise_lt_range _)

theorem sum_map_add_nat {α : Type} (l : List α) (f g : α → ℕ) :
    (l.map (fun a => f a + g a)).sum = (l.map f).sum + (l.map g).sum := by
  induction l with
  | nil => rfl
  | cons a t ih =>
    simp only [List.map_cons, List.sum_cons, ih]
    omega

theorem sum_indicator_not_mem (ids : List ℕ) (x : ℕ) (hx : x ∉ ids) :
    (ids.map (fun c => if x = c then 1 else 0)).sum = 0 := by
  induction ids with
  | nil => rfl
  | cons a t ih =>
    have hxa : x ≠ a := fun h => hx (by rw [h]; exact List.mem_cons_self a t)
    have hxt : x ∉ t := fun h => hx (List.mem_cons_of_mem a h)
    rw [List.map_cons, List.sum_cons, if_neg hxa, ih hxt]

theorem sum_indicator_mem (ids : List ℕ) (x : ℕ) (hnd : ids.Nodup) (hx : x ∈ ids) :
    (ids.map (fun c => if x = c then 1 else 0)).sum = 1 := by
  induction ids with
  | nil => cases hx
  | cons a t ih =>
    rw [List.map_cons, List.sum_cons]
    rcases List.mem_cons.mp hx with h | h
    · rw [if_pos h,
        sum_indicator_not_mem t x (fun hx' => (List.nodup_cons.mp hnd).1 (h ▸ hx'))]
    · have hne : x ≠ a := fun he => (List.nodup_cons.mp hnd).1 (he ▸ h)
      rw [if_neg hne, ih (List.nodup_cons.mp hnd).2 h]

theorem groupRows_cons_length (r : Row) (t : List Row) (c : ℕ) :
    (groupRows (r :: t) c).length =
      (if r.cluster = c then 1 else 0) + (groupRows t c).length := by
  unfold groupRows
  rw [List.filter_cons]
  by_cases h : r.cluster = c
  · simp [h]
    omega
  · simp [h]

theorem sum_group_lengths (ids : List ℕ) (d : List Row) (hnd : ids.Nodup)
    (hcov : ∀ r ∈ d, r.cluster ∈ ids) :
    (ids.map (fun c => (groupRows d c).length)).sum = d.length := by
  induction d with
  | nil => simp [groupRows]
  | cons r t ih =>
    calc (ids.map (fun c => (groupRows (r :: t) c).length)).sum
        = (ids.map (fun c =>
            (if r.cluster = c then 1 else 0) + (groupRows t c).length)).sum :=
          congrArg List.sum (List.map_congr_left (fun c _ => groupRows_cons_length r t c))
      _ = (ids.map (fun c => if r.cluster = c then 1 else 0)).sum +
            (ids.map (fun c => (groupRows t c).length)).sum := sum_map_add_nat ids _ _
      _ = 1 + t.length := by
          rw [sum_indicator_mem ids r.cluster hnd (hcov r (List.mem_cons_self r t)),
            ih (fun r' hr' => hcov r' (List.mem_cons_of_mem r hr'))]
      _ = (r :: t).length := by simp [List.length_cons]; omega

theorem summary_map_Cluster (data : List Row) :
    (summary data).map SummaryRow.Cluster = clusterIds data := by
  unfold summary
  rw [List.map_map]
  exact (List.map_congr_left (fun c _ => rfl)).trans (List.map_id _)

/-- C7: the per-cluster row counts in the summary table sum exactly to
the total row count of the dataset. -/
theorem summary_counts_sum (data : List Row) :
    ((summary data).map SummaryRow.Count).sum = data.length := by
  have hmap : (summary data).map SummaryRow.Count
      = (clusterIds data).map (fun c => (groupRows data c).length) := by
    unfold summary
    rw [List.map_map]
    rfl
  rw [hmap]
  exact sum_group_lengths (clusterIds data) data (clusterIds_nodup data)
    (fun r hr => (mem_clusterIds data r.cluster).mpr ⟨r, hr, rfl⟩)

/-- C10: the summary table has exactly one row per cluster id with at
least one assigned row, in ascending order of cluster id; empty ids are
omitted (every summary row has a positive count equal to its group
size, and an id appears iff some data row carries it). -/
theorem summary_one_row_per_nonempty_cluster (data : List Row) :
    List.Pairwise (· < ·) ((summary data).map SummaryRow.Cluster) ∧
    (∀ c : ℕ, c ∈ (summary data).map SummaryRow.Cluster ↔ ∃ r ∈ data, r.cluster = c) ∧
    (∀ s ∈ summary data, 0 < s.Count ∧ s.Count = (groupRows data s.Cluster).length) := by
  refine ⟨?_, ?_, ?_⟩
  · rw [summary_map_Cluster]; exact clusterIds_sorted data
  · intro c; rw [summary_map_Cluster]; exact mem_clusterIds data c
  · intro s hs
    unfold summary at hs
    rcases List.mem_map.mp hs with ⟨c, hc, rfl⟩
    rcases (mem_clusterIds data c).mp hc with ⟨r, hr, hrc⟩
    have hmem : r ∈ groupRows data c :=
      List.mem_filter.mpr ⟨hr, by simp [hrc]⟩
    exact ⟨List.length_pos_of_mem hmem, rfl⟩

/-- C10 witness: concrete instantiation on `unequalData`, discharging
the membership hypotheses there. -/
theorem summary_one_row_per_nonempty_cluster_witness :
    (1 ∈ (summary unequalData).map SummaryRow.Cluster) ∧
    0 < ({ Cluster := 0, Count := 1, Avg_Feature_1 := 0, Avg_Feature_2 := 0 } :
      SummaryRow).Count := by
  have h := summary_one_row_per_nonempty_cluster unequalData
  refine ⟨(h.2.1 1).mpr ⟨⟨6, 0, 1⟩, by decide, rfl⟩, ?_⟩
  exact (h.2.2 { Cluster := 0, Count := 1, Avg_Feature_1 := 0, Avg_Feature_2 := 0 }
    (by decide)).1

/-- C1: the reference value each cluster's per-feature mean is compared
against is the grand mean computed as the unweighted mean of the
per-cluster means (mean-of-cluster-means) for each feature; on
`unequalData` (unequal cluster sizes) it lies strictly below the
row-weighted global mean, so the two rules genuinely differ. -/
theorem grand_mean_is_mean_of_cluster_means :
    (∀ data : List Row,
        grand_mean_1 (summary data) = spec_grand_mean_1 data ∧
        grand_mean_2 (summary data) = spec_grand_mean_2 data) ∧
    grand_mean_1 (summary unequalData) < row_weighted_mean_1 unequalData := by
  constructor
  · intro data
    constructor
    · unfold grand_mean_1 spec_grand_mean_1 summary
      rw [List.map_map]
      rfl
    · unfold grand_mean_2 spec_grand_mean_2 summary
      rw [List.map_map]
      rfl
  · decide

/-- C2: the interpretation label follows the exact if/elif/else
precedence: the high-spender label iff both cluster means strictly
exceed the grand means, else the budget label iff both are strictly
below, else the moderate label; in particular, exceeding the grand mean
on feature 1 while tying it exactly on feature 2 yields the moderate
label. -/
theorem interpret_precedence (s : List SummaryRow) (r : SummaryRow) :
    (interpret s r = highMsg ↔
      grand_mean_1 s < r.Avg_Feature_1 ∧ grand_mean_2 s < r.Avg_Feature_2) ∧
    (interpret s r = budgetMsg ↔
      r.Avg_Feature_1 < grand_mean_1 s ∧ r.Avg_Feature_2 < grand_mean_2 s) ∧
    (¬(grand_mean_1 s < r.Avg_Feature_1 ∧ grand_mean_2 s < r.Avg_Feature_2) →
      ¬(r.Avg_Feature_1 < grand_mean_1 s ∧ r.Avg_Feature_2 < grand_mean_2 s) →
      interpret s r = moderateMsg) ∧
    (grand_mean_1 s < r.Avg_Feature_1 → r.Avg_Feature_2 = grand_mean_2 s →
      interpret s r = moderateMsg) := by
  have hhb : highMsg ≠ budgetMsg := by decide
  have hhm : highMsg ≠ moderateMsg := by decide
  have hbm : budgetMsg ≠ moderateMsg := by decide
  unfold interpret
  split_ifs with h1 h2
  · exact ⟨iff_of_true rfl h1,
      iff_of_false hhb (fun hc => lt_asymm h1.1 hc.1),
      fun hn _ => absurd h1 hn,
      fun _ heq => absurd (heq ▸ h1.2) (lt_irrefl _)⟩
  · exact ⟨iff_of_false (Ne.symm hhb) h1,
      iff_of_true rfl h2,
      fun _ hn2 => absurd h2 hn2,
      fun hgt _ => absurd hgt (lt_asymm h2.1)⟩
  · exact ⟨iff_of_false (Ne.symm hhm) h1,
      iff_of_false (Ne.symm hbm) h2,
      fun _ _ => rfl,
      fun _ _ => rfl⟩

/-- Two-row summary realizing the boundary case: the second row exceeds
the grand mean of feature 1 (2 > 1) while its feature 2 mean ties the
grand mean of feature 2 exactly (2 = 2). -/
def tieSummary : List SummaryRow :=
  [{ Cluster := 0, Count := 1, Avg_Feature_1 := 0, Avg_Feature_2 := 2 },
   { Cluster := 1, Count := 1, Avg_Feature_1 := 2, Avg_Feature_2 := 2 }]

/-- The boundary row of `tieSummary`. -/
def tieRow : SummaryRow :=
  { Cluster := 1, Count := 1, Avg_Feature_1 := 2, Avg_Feature_2 := 2 }

/-- C2 witness: the boundary cluster of `tieSummary` receives the
moderate label. -/
theorem interpret_precedence_witness :
    interpret tieSummary tieRow = moderateMsg :=
  (interpret_precedence tieSummary tieRow).2.2.2 (by decide) (by decide)

theorem nearestIdx_lt (p : ℚ × ℚ) :
    ∀ cs : List (ℚ × ℚ), cs ≠ [] → nearestIdx p cs < cs.length
  | [], h => absurd rfl h
  | [_], _ => Nat.zero_lt_one
  | c :: c' :: cs, _ => by
    simp only [nearestIdx]
    split
    · simp
    · have h := nearestIdx_lt p (c' :: cs) (by simp)
      simp only [List.length_cons] at h ⊢
      omega

theorem stepCentroids_length (X cs : List (ℚ × ℚ)) :
    (stepCentroids X cs).length = cs.length := by
  simp [stepCentroids]

theorem lloyd_length (X : List (ℚ × ℚ)) :
    ∀ (n : ℕ) (cs : List (ℚ × ℚ)), (lloyd X n cs).length = cs.length
  | 0, _ => rfl
  | n + 1, cs => by
    simp only [lloyd]
    split
    · rfl
    · rw [lloyd_length X n (stepCentroids X cs), stepCentroids_length]

theorem initCentroids_length (X : List (ℚ × ℚ)) (k seed : ℕ) :
    (initCentroids X k seed).length = k := by
  simp [initCentroids]

/-- C3: for every valid input (two-column matrix with `k` between 2 and
the row count), the clustering engine assigns exactly one cluster id in
`[0, k)` to every row, and the number of distinct ids is at most `k`. -/
theorem fit_predict_valid (X : List (ℚ × ℚ)) (k seed : ℕ)
    (h2 : 2 ≤ k) (hk : k ≤ X.length) :
    ∃ ls : List ℕ, fit_predict X k seed = Except.ok ls ∧
      ls.length = X.length ∧ (∀ l ∈ ls, l < k) ∧ ls.dedup.length ≤ k := by
  have hnot : ¬ X.length < k := not_lt.mpr hk
  have hlen : (lloyd X maxIter (initCentroids X k seed)).length = k := by
    rw [lloyd_length, initCentroids_length]
  have hne : lloyd X maxIter (initCentroids X k seed) ≠ [] := by
    have hpos : 0 < (lloyd X maxIter (initCentroids X k seed)).length := by
      rw [hlen]; omega
    exact List.length_pos.mp hpos
  have hbound : ∀ l ∈ assignLabels X (lloyd X maxIter (initCentroids X k seed)), l < k := by
    intro l hl
    rcases List.mem_map.mp hl with ⟨p, _, rfl⟩
    have h := nearestIdx_lt p _ hne
    rwa [hlen] at h
  refine ⟨assignLabels X (lloyd X maxIter (initCentroids X k seed)), ?_, ?_, hbound, ?_⟩
  · simp [fit_predict, hnot]
  · simp [assignLabels]
  · have hnd := List.nodup_dedup (assignLabels X (lloyd X maxIter (initCentroids X k seed)))
    have hsub : (assignLabels X (lloyd X maxIter (initCentroids X k seed))).dedup.toFinset ⊆
        Finset.range k := by
      intro x hx
      rw [List.mem_toFinset] at hx
      exact Finset.mem_range.mpr (hbound x (List.mem_dedup.mp hx))
    have hcard := Finset.card_le_card hsub
    rwa [List.toFinset_card_of_nodup hnd, Finset.card_range] at hcard

deriving instance DecidableEq for Except

/-- Concrete two-row matrix used to instantiate the clustering-engine
theorems. -/
def twoPoints : List (ℚ × ℚ) := [(0, 0), (10, 10)]

/-- C3 witness: the engine at the two-row matrix with k = 2, seed 42. -/
theorem fit_predict_valid_witness :
    2 ≤ 2 ∧ 2 ≤ twoPoints.length ∧
    (∃ ls : List ℕ, fit_predict twoPoints 2 42 = Except.ok ls ∧
      ls.length = twoPoints.length ∧ (∀ l ∈ ls, l < 2) ∧ ls.dedup.length ≤ 2) :=
  ⟨le_refl 2, by decide, fit_predict_valid twoPoints 2 42 (le_refl 2) (by decide)⟩

/-- C4: determinism of the clustering engine — two runs on the identical
standardized matrix with identical cluster count and identical seed
return identical per-row assignments.  (Feature extraction and
standardization are functions of the dataset and the chosen pair, so
identical upstream inputs give the engine identical matrices.) -/
theorem fit_predict_deterministic (X : List (ℚ × ℚ)) (k seed : ℕ) (ls₁ ls₂ : List ℕ)
    (h₁ : fit_predict X k seed = Except.ok ls₁)
    (h₂ : fit_predict X k seed = Except.ok ls₂) : ls₁ = ls₂ := by
  rw [h₁] at h₂
  exact Except.ok.inj h₂

/-- C4 witness: both hypotheses discharged at the two-row matrix. -/
theorem fit_predict_deterministic_witness :
    fit_predict twoPoints 2 42 = Except.ok [0, 1] ∧ ([0, 1] : List ℕ) = [0, 1] :=
  ⟨by decide, fit_predict_deterministic twoPoints 2 42 [0, 1] [0, 1] (by decide) (by decide)⟩

/-- C8: when K exceeds the number of rows, the clustering engine fails
with a reported error instead of truncating K or silently producing a
result. -/
theorem fit_predict_k_exceeds_rows (X : List (ℚ × ℚ)) (k seed : ℕ)
    (h : X.length < k) : fit_predict X k seed = Except.error nSamplesErr := by
  simp [fit_predict, h]

/-- C8 witness: three clusters requested on a two-row matrix. -/
theorem fit_predict_k_exceeds_rows_witness :
    twoPoints.length < 3 ∧ fit_predict twoPoints 3 42 = Except.error nSamplesErr :=
  ⟨by decide, fit_predict_k_exceeds_rows twoPoints 3 42 (by decide)⟩

theorem fit_transform_eq_map (X : List (ℝ × ℝ)) :
    fit_transform X = X.map (fun p =>
      ((p.1 - colMean (X.map Prod.fst)) / popStd (X.map Prod.fst),
       (p.2 - colMean (X.map Prod.snd)) / popStd (X.map Prod.snd))) := by
  unfold fit_transform stdCol
  rw [List.map_map, List.map_map, List.zip_map']
  rfl

/-- Sample variance (denominator N - 1): the convention the spec says
the scaler does not use. -/
noncomputable def sampleVar (v : List ℝ) : ℝ :=
  ((v.map (fun x => (x - colMean v) ^ 2)).sum) / ((v.length : ℝ) - 1)

/-- C5: the standardization maps each row (x1, x2) to
((x1 - mu1)/sigma1, (x2 - mu2)/sigma2), each column independently, with
mu the column mean and sigma the square root of the population variance
(mean squared deviation over N); on the column [0, 2] the population
variance is strictly below the sample variance, so the two conventions
genuinely differ. -/
theorem fit_transform_zscore :
    (∀ X : List (ℝ × ℝ), fit_transform X = X.map (fun p =>
      ((p.1 - colMean (X.map Prod.fst)) / Real.sqrt (popVar (X.map Prod.fst)),
       (p.2 - colMean (X.map Prod.snd)) / Real.sqrt (popVar (X.map Prod.snd))))) ∧
    popVar [(0 : ℝ), 2] < sampleVar [(0 : ℝ), 2] := by
  constructor
  · intro X
    exact fit_transform_eq_map X
  · norm_num [popVar, sampleVar, colMean]

/-- C6: reversing the standardization of the standardized matrix
reproduces the original matrix exactly whenever both population
standard deviations are nonzero — standardize followed by the inverse
mapping is a round-trip. -/
theorem inverse_transform_roundtrip (X : List (ℝ × ℝ))
    (h1 : popStd (X.map Prod.fst) ≠ 0) (h2 : popStd (X.map Prod.snd) ≠ 0) :
    inverse_transform X (fit_transform X) = X := by
  rw [fit_transform_eq_map]
  unfold inverse_transform
  rw [List.map_map]
  refine (List.map_congr_left ?_).trans (List.map_id _)
  intro p _
  dsimp only [Function.comp]
  rw [div_mul_cancel₀ _ h1, div_mul_cancel₀ _ h2]
  simp

/-- Concrete real matrix for the round-trip witness; both columns have
population variance 1. -/
noncomputable def twoReals : List (ℝ × ℝ) := [(-1, 0), (1, 2)]

/-- C6 witness: the round-trip at `twoReals`, whose column standard
deviations are nonzero. -/
theorem inverse_transform_roundtrip_witness :
    (popStd (twoReals.map Prod.fst) ≠ 0 ∧ popStd (twoReals.map Prod.snd) ≠ 0) ∧
    inverse_transform twoReals (fit_transform twoReals) = twoReals := by
  have hv1 : popVar (twoReals.map Prod.fst) = 1 := by
    norm_num [twoReals, popVar, colMean]
  have hv2 : popVar (twoReals.map Prod.snd) = 1 := by
    norm_num [twoReals, popVar, colMean]
  have h1 : popStd (twoReals.map Prod.fst) ≠ 0 := by
    unfold popStd; rw [hv1, Real.sqrt_one]; exact one_ne_zero
  have h2 : popStd (twoReals.map Prod.snd) ≠ 0 := by
    unfold popStd; rw [hv2, Real.sqrt_one]; exact one_ne_zero
  exact ⟨⟨h1, h2⟩, inverse_transform_roundtrip twoReals h1 h2⟩

/-- C9: with fewer than two numeric columns, no feature pair is
selectable (the selector reports nothing to choose) and the gated run
performs no clustering computation. -/
theorem insufficient_numeric_features (nf : List String) (h : nf.length < 2) :
    selectFeaturePair nf = none ∧
    ∀ (X : List (ℚ × ℚ)) (k seed : ℕ), gatedRun nf X k seed = none := by
  have hsel : selectFeaturePair nf = none := by
    cases nf with
    | nil => rfl
    | cons f t =>
      cases t with
      | nil => simp [selectFeaturePair]
      | cons g u =>
        simp only [List.length_cons] at h
        omega
  exact ⟨hsel, fun X k seed => by simp [gatedRun, hsel]⟩

/-- List of numeric column names with a single entry, for the C9
witness. -/
def oneColumn : List String := ["a"]

/-- C9 witness: a dataset exposing one numeric column selects no pair
and runs no clustering. -/
theorem insufficient_numeric_features_witness :
    oneColumn.length < 2 ∧ selectFeaturePair oneColumn = none ∧
    gatedRun oneColumn [] 2 42 = none := by
  have h := insufficient_numeric_features oneColumn (by decide)
  exact ⟨by decide, h.1, h.2 [] 2 42⟩

end KMeansApp
